import Mathlib

/-!
Shallow embedding of the design-token pipeline of the `tokenize` repository.

Conventions used throughout:
* JavaScript numbers are modelled as exact rationals (`ℚ`); `Math.round` is
  `jsRound` (round half toward positive infinity), `Math.floor` is `Int.floor`.
* JavaScript strings are Lean `String`s; `undefined` values are `Option.none`.
* JavaScript objects used as dictionaries are association lists
  (`List (key × value)`); assignment `obj[k] = v` is `upsert`, which replaces
  the first binding of `k` or appends a new one, and lookup finds the first
  binding, so the list always agrees with the JS object contents.
-/

namespace Tokenize

/-- JavaScript `Math.round`: rounds half toward positive infinity. -/
def jsRound (q : ℚ) : ℤ := ⌊q + 1 / 2⌋

/-- JavaScript `%` on the nonnegative operands used by `convertHslToHex`
(`(h / 60) % 2` with `h ≥ 0`), where it agrees with floor-mod. -/
def jsFmod (a b : ℚ) : ℚ := a - b * ⌊a / b⌋

/-- Integer HSL triple as produced by `convertHexColorToHsl`
(src/helperUtils/colors.js): hue, saturation and lightness each rounded
to the nearest integer. -/
structure Hsl where
  hue : ℤ
  saturation : ℤ
  lightness : ℤ
deriving DecidableEq, Repr

/-- Core of `convertHexColorToHsl` (src/helperUtils/colors.js, lines 13-72)
on the three RGB channel bytes read from the first six hex digits.  The JS
`switch (maximumChannel)` tries `case redChannel` first, then `greenChannel`,
then `blueChannel`; the if-chain below mirrors that order. -/
def convertHexColorToHsl (r g b : ℕ) : Hsl :=
  let rc : ℚ := (r : ℚ) / 255
  let gc : ℚ := (g : ℚ) / 255
  let bc : ℚ := (b : ℚ) / 255
  let maximumChannel := max rc (max gc bc)
  let minimumChannel := min rc (min gc bc)
  let lightness := (maximumChannel + minimumChannel) / 2
  if maximumChannel = minimumChannel then
    { hue := 0, saturation := 0, lightness := jsRound (lightness * 100) }
  else
    let channelDelta := maximumChannel - minimumChannel
    let saturation :=
      if lightness > 1 / 2 then channelDelta / (2 - maximumChannel - minimumChannel)
      else channelDelta / (maximumChannel + minimumChannel)
    let hue :=
      if maximumChannel = rc then
        ((gc - bc) / channelDelta + (if gc < bc then 6 else 0)) / 6
      else if maximumChannel = gc then
        ((bc - rc) / channelDelta + 2) / 6
      else
        ((rc - gc) / channelDelta + 4) / 6
    { hue := jsRound (hue * 360)
      saturation := jsRound (saturation * 100)
      lightness := jsRound (lightness * 100) }

/-- Model of `getHueCategoryFromValue` (src/helperUtils/colors.js, lines 83-93),
verbatim if-chain over the rounded hue. -/
def getHueCategoryFromValue (hueValue : ℤ) : String :=
  if hueValue < 15 ∨ hueValue ≥ 345 then "red"
  else if hueValue < 45 then "orange"
  else if hueValue < 75 then "yellow"
  else if hueValue < 165 then "green"
  else if hueValue < 195 then "cyan"
  else if hueValue < 255 then "blue"
  else if hueValue < 285 then "purple"
  else if hueValue < 345 then "pink"
  else "red"

/-- Model of `categorizeHexColor` (src/helperUtils/colors.js, lines 100-104) on the
parsed RGB channel bytes. -/
def categorizeRgb (r g b : ℕ) : String :=
  let hsl := convertHexColorToHsl r g b
  if hsl.saturation < 10 then "neutral" else getHueCategoryFromValue hsl.hue

/-- Hex digit value of a character, `none` for non-hex characters. -/
def hexDigitVal (c : Char) : Option ℕ :=
  let n := c.toNat
  if 48 ≤ n ∧ n ≤ 57 then some (n - 48)
  else if 97 ≤ n ∧ n ≤ 102 then some (n - 87)
  else if 65 ≤ n ∧ n ≤ 70 then some (n - 55)
  else none

/-- Characters removed by `hexColor.replace(/[#;\s]*/g, "")`. -/
def isHexPunct (c : Char) : Bool :=
  c = '#' ∨ c = ';' ∨ c = ' ' ∨ c = '\t' ∨ c = '\n' ∨ c = '\r'

/-- Shorthand expansion in `convertHexColorToHsl`: when the stripped length
is 3, 4 or 5 (`(length - 3) >>> 0 < 3` in JS), every character is doubled
(`replace(/./g, "$&$&")`). -/
def expandShorthand (s : List Char) : List Char :=
  if 3 ≤ s.length ∧ s.length ≤ 5 then s.flatMap (fun c => [c, c]) else s

/-- Reads the first six hex digits as the R, G, B bytes, as the three
`parseInt(hexColor.slice(_, _), 16)` calls do.  Inputs whose first six
characters are not all hex digits produce `NaN` channels in JS and are out
of this model (`none`). -/
def parseHexRgb (s : List Char) : Option (ℕ × ℕ × ℕ) :=
  match s with
  | c1 :: c2 :: c3 :: c4 :: c5 :: c6 :: _ =>
    match hexDigitVal c1, hexDigitVal c2, hexDigitVal c3, hexDigitVal c4,
        hexDigitVal c5, hexDigitVal c6 with
    | some a, some b, some c, some d, some e, some f =>
      some (a * 16 + b, c * 16 + d, e * 16 + f)
    | _, _, _, _, _, _ => none
  | _ => none

/-- String front end of `convertHexColorToHsl`: strip punctuation, expand
3-5 character shorthand, parse the first six hex digits. -/
def hexStringToRgb (s : String) : Option (ℕ × ℕ × ℕ) :=
  parseHexRgb (expandShorthand (s.data.filter (fun c => ¬ isHexPunct c)))

/-- Model of `convertHexColorToHsl` on a hex string. -/
def hexStringToHsl (s : String) : Option Hsl :=
  (hexStringToRgb s).map fun t => convertHexColorToHsl t.1 t.2.1 t.2.2

/-- Model of `categorizeHexColor` on a hex string. -/
def categorizeHexColor (s : String) : Option String :=
  (hexStringToRgb s).map fun t => categorizeRgb t.1 t.2.1 t.2.2

/-- Hex digit character for a value 0-15, as produced by `toString(16)`. -/
def hexDigitChar (n : ℕ) : Char :=
  if n < 10 then Char.ofNat (48 + n) else Char.ofNat (87 + n)

/-- Two-digit lowercase hex rendering of a byte, as in the `toHex` helper of
`convertHslToHex` (pad single digits with a leading zero). -/
def byteToHex (n : ℕ) : String :=
  if n < 16 then String.mk ['0', hexDigitChar n]
  else String.mk [hexDigitChar (n / 16), hexDigitChar (n % 16)]

/-- Model of `convertHslToHex` (src/helperUtils/colors.js, lines 126-164). -/
def convertHslToHex (h s l : ℚ) : String :=
  let s1 := s / 100
  let l1 := l / 100
  let c := (1 - |2 * l1 - 1|) * s1
  let x := c * (1 - |jsFmod (h / 60) 2 - 1|)
  let m := l1 - c / 2
  let rgb : ℚ × ℚ × ℚ :=
    if h < 60 then (c, x, 0)
    else if h < 120 then (x, c, 0)
    else if h < 180 then (0, c, x)
    else if h < 240 then (0, x, c)
    else if h < 300 then (x, 0, c)
    else (c, 0, x)
  let toHexByte : ℚ → String := fun n => byteToHex (jsRound ((n + m) * 255)).toNat
  "#" ++ toHexByte rgb.1 ++ toHexByte rgb.2.1 ++ toHexByte rgb.2.2

/-- hex → HSL → hex round trip of src/helperUtils/colors.js. -/
def roundTripHex (s : String) : Option String :=
  (hexStringToHsl s).map fun hsl =>
    convertHslToHex (hsl.hue : ℚ) (hsl.saturation : ℚ) (hsl.lightness : ℚ)

/-- Association-list upsert: JS object/dictionary assignment `obj[k] = v`,
replacing the first binding of `k` in place or appending a new binding. -/
def upsert {α β : Type} [DecidableEq α] : List (α × β) → α → β → List (α × β)
  | [], k, v => [(k, v)]
  | (k', v') :: rest, k, v =>
    if k' = k then (k, v) :: rest else (k', v') :: upsert rest k v

/-- First-binding lookup: JS `Map.get` / object property read (`undefined`
is `none`). -/
def lookupKey {α β : Type} [DecidableEq α] : List (α × β) → α → Option β
  | [], _ => none
  | (k', v) :: rest, k => if k' = k then some v else lookupKey rest k

/-- The three token layers of src/commands/tokens.js (`LAYERS`). -/
inductive Layer where
  | primitives
  | semantic
  | components
deriving DecidableEq, Repr

/-- Model of `layerDependencies` (src/commands/tokens.js, lines 36-40). -/
def layerDependencies : Layer → List Layer
  | .primitives => []
  | .semantic => [.primitives]
  | .components => [.semantic]

/-- Position of a layer in the dependency chain, used as the termination
measure for `addWithDependencies`. -/
def layerRank : Layer → ℕ
  | .primitives => 0
  | .semantic => 1
  | .components => 2

/-- Model of `addWithDependencies(primitives)`: `layerDependencies.primitives = []`,
so a missing primitives layer is pushed directly. -/
def addPrimitives (acc : List Layer) : List Layer :=
  if Layer.primitives ∈ acc then acc else acc ++ [.primitives]

/-- Model of `addWithDependencies(semantic)`: first the primitives dependency, then
semantic itself. -/
def addSemantic (acc : List Layer) : List Layer :=
  if Layer.semantic ∈ acc then acc else (addPrimitives acc) ++ [.semantic]

/-- Model of `addWithDependencies(components)`: first the semantic dependency (which
in turn adds primitives), then components itself. -/
def addComponents (acc : List Layer) : List Layer :=
  if Layer.components ∈ acc then acc else (addSemantic acc) ++ [.components]

/-- Model of `addWithDependencies` inside `generateLayers` (src/commands/tokens.js,
lines 214-222): a layer already listed is skipped; otherwise its
dependencies are added first (recursively) and the layer is pushed after
them.  The recursion through the fixed three-node `layerDependencies`
graph is unrolled into `addPrimitives`/`addSemantic`/`addComponents`. -/
def addWithDependencies (acc : List Layer) : Layer → List Layer
  | .primitives => addPrimitives acc
  | .semantic => addSemantic acc
  | .components => addComponents acc

/-- The `toGenerate` list of `generateLayers` (src/commands/tokens.js,
lines 224-226): fold the requested layers through `addWithDependencies`. -/
def toGenerate (layers : List Layer) : List Layer :=
  layers.foldl addWithDependencies []

/-- The per-layer regeneration decision of `generateLayers`
(src/commands/tokens.js, lines 230-235): keep a layer when its output
artifact does not exist, or when it was explicitly requested. -/
def runFilter (layers : List Layer) (artifactExists : Layer → Bool)
    (layer : Layer) : Bool :=
  if artifactExists layer = false then true
  else if layer ∈ layers then true
  else false

/-- Model of `layersToRun` of `generateLayers` (src/commands/tokens.js, lines
228-235): with `--force` the whole generation list runs, otherwise it is
filtered by `runFilter`. -/
def layersToRun (layers : List Layer) (force : Bool)
    (artifactExists : Layer → Bool) : List Layer :=
  if force then toGenerate layers
  else (toGenerate layers).filter (runFilter layers artifactExists)

/-- Transitive dependency closure of a single layer (spec §4.6 vocabulary),
listed in dependency order, for stating what `toGenerate` computes. -/
def depClosure : Layer → List Layer
  | .primitives => [.primitives]
  | .semantic => [.primitives, .semantic]
  | .components => [.primitives, .semantic, .components]

/-- The four accumulator values reachable by `addWithDependencies` starting
from the empty list: every accumulator is a dependency-ordered prefix chain. -/
def chainAccs : List (List Layer) :=
  [[], [.primitives], [.primitives, .semantic],
    [.primitives, .semantic, .components]]

/-- Model of `getName` inside `buildFontFamilies` (src/generators/primitives.js,
lines 336-337). -/
def fontFamilyName (index : ℕ) : String :=
  if index = 0 then "primary"
  else if index = 1 then "secondary"
  else "family" ++ toString (index + 1)

/-- Model of `buildFontFamilies` (src/generators/primitives.js, lines 331-351):
`families.slice(0, 5)` folded with `scale[getName(index)] = family`. -/
def buildFontFamilies (families : List String) : List (String × String) :=
  (families.take 5).enum.foldl
    (fun scale p => upsert scale (fontFamilyName p.1) p.2) []

/-- Input item for the spacing generator (src/generators/primitives.js):
a scanned string either ends in "px" and `parseFloat` yields its numeric
magnitude, or it is some other value.  Strings ending in "px" whose prefix
fails to parse give `NaN` in JS and fail every later range test, so they
are modelled as `other` as well. -/
inductive SpacingInput where
  | px (value : ℚ)
  | other
deriving DecidableEq, Repr

/-- The filter pipeline of `generateSpacingScale` (src/generators/
primitives.js, lines 125-128): keep px values with magnitude in [1, 200]. -/
def spacingPxValues (values : List SpacingInput) : List ℚ :=
  (values.filterMap fun v => match v with | .px q => some q | .other => none).filter
    fun value => decide (1 ≤ value ∧ value ≤ 200)

/-- Model of `uniqueSorted` (src/generators/primitives.js, lines 108-109):
de-duplicate (`new Set`) then sort ascending. -/
def uniqueSorted (values : List ℚ) : List ℚ :=
  (values.dedup).insertionSort (· ≤ ·)

/-- Model of `assignStep` inside `generateSpacingScale` (src/generators/
primitives.js, lines 134-140): `step = Math.round(value / base)`; steps in
[1, 50] are written into the scale (`scale[step] = value + "px"`; the
constant px suffix is dropped here, keeping the numeric value). -/
def assignStep (base : ℚ) (scale : List (ℤ × ℚ)) (value : ℚ) : List (ℤ × ℚ) :=
  let step := jsRound (value / base)
  if 1 ≤ step ∧ step ≤ 50 then upsert scale step value else scale

/-- Model of `generateSpacingScale` (src/generators/primitives.js, lines 124-146). -/
def generateSpacingScale (base : ℚ) (values : List SpacingInput) :
    List (ℤ × ℚ) :=
  (uniqueSorted (spacingPxValues values)).foldl (assignStep base) []

/-- JSON scalar leaf values.  Arrays and objects also occur in token files
but the diff engine treats values opaquely (it only compares their
`JSON.stringify` serializations for equality), so scalars suffice here and
serialization equality is plain equality. -/
inductive JsonVal where
  | null
  | bool (b : Bool)
  | num (q : ℚ)
  | str (s : String)
deriving DecidableEq, Repr

/-- A flattened token-map entry `{ value, type }` as built by
`flattenTokens` (src/commands/diff.js, lines 92-127); `vtype` is `none`
when the type is `undefined`. -/
structure TokenEntry where
  value : JsonVal
  vtype : Option String
deriving DecidableEq, Repr

/-- The counters and difference lists produced by `compareTokenMaps`
(src/commands/diff.js); missing/extra keep the path, mismatched keeps the
path with its diff label. -/
structure DiffReport where
  missing : List String
  mismatched : List (String × String)
  matched : ℕ
  extra : List String
  total : ℕ
deriving DecidableEq, Repr

/-- The first loop of `compareTokenMaps` (src/commands/diff.js, lines
146-170): per reference path, record `missing` when the generated map has
no entry; otherwise compare the serialized values — on a difference record
a mismatch labelled "type-mismatch" when the types also differ, else
"mismatch"; on equal values count the pair as matched (the types are not
consulted in that case). -/
def comparePass (generated : List (String × TokenEntry)) :
    List (String × TokenEntry) → List String × List (String × String) × ℕ
  | [] => ([], [], 0)
  | (path, refToken) :: rest =>
    let r := comparePass generated rest
    match lookupKey generated path with
    | none => (path :: r.1, r.2.1, r.2.2)
    | some genToken =>
      if refToken.value ≠ genToken.value then
        (r.1,
          (path,
            if refToken.vtype ≠ genToken.vtype then "type-mismatch"
            else "mismatch") :: r.2.1,
          r.2.2)
      else (r.1, r.2.1, r.2.2 + 1)

/-- Model of `compareTokenMaps` (src/commands/diff.js, lines 136-191). -/
def compareTokenMaps (generated refs : List (String × TokenEntry)) :
    DiffReport :=
  let r := comparePass generated refs
  { missing := r.1
    mismatched := r.2.1
    matched := r.2.2
    extra := (generated.filter fun e => decide (lookupKey refs e.1 = none)).map Prod.fst
    total := refs.length }

/-- Model of `ColorEntry` of src/generators/primitives.js: a hex color with its HSL
lightness (called luminance there). -/
structure ColorEntry where
  value : String
  luminance : ℤ
deriving DecidableEq, Repr

/-- Model of `isHexColor` (src/generators/primitives.js, line 84). -/
def isHexColor (color : String) : Bool :=
  color.startsWith "#" && decide (color.length ≥ 7)

/-- One `addToGroup` step of `groupColors` (src/generators/primitives.js,
lines 198-203): push the entry onto its category's list, creating the
category at the end of the group object when new. -/
def pushToGroup (groups : List (String × List ColorEntry)) (category : String)
    (entry : ColorEntry) : List (String × List ColorEntry) :=
  match lookupKey groups category with
  | some entries => upsert groups category (entries ++ [entry])
  | none => groups ++ [(category, [entry])]

/-- Model of `groupColors` (src/generators/primitives.js, lines 182-221): filter to
hex colors, bucket by `categorizeHexColor` with the HSL lightness as the
luminance, then sort every bucket by luminance descending (stably, as JS
`Array.prototype.sort` is).  Strings passing `isHexColor` whose digits do
not parse produce `NaN` luminances in JS and are outside this model. -/
def groupColors (colors : List String) : List (String × List ColorEntry) :=
  let hexColors := colors.filter isHexColor
  let groups := hexColors.foldl
    (fun groups color =>
      match hexStringToRgb color with
      | none => groups
      | some t =>
        pushToGroup groups (categorizeRgb t.1 t.2.1 t.2.2)
          { value := color
            luminance := (convertHexColorToHsl t.1 t.2.1 t.2.2).lightness })
    []
  groups.map fun g =>
    (g.1, g.2.insertionSort (fun a b => b.luminance ≤ a.luminance))

/-- Model of `mapColorScale` (src/generators/primitives.js, lines 289-302):
`step = floor(900 / max(n - 1, 1))`, the i-th color keyed at
`min(100 + i * step, 950)`, key collisions overwriting in order. -/
def mapColorScale (colors : List ColorEntry) : List (ℕ × String) :=
  let step := 900 / max (colors.length - 1) 1
  colors.enum.foldl
    (fun scale p => upsert scale (min (100 + p.1 * step) 950) p.2.value) []

/-- The primitive color tier: hue category → color scale
(`buildColorPrimitives`, src/generators/primitives.js, lines 309-324). -/
abbrev ColorTree := List (String × List (ℕ × String))

/-- Model of `buildColorPrimitives` (src/generators/primitives.js, lines 309-324). -/
def buildColorPrimitives (colorGroups : List (String × List ColorEntry)) :
    ColorTree :=
  colorGroups.map fun g => (g.1, mapColorScale g.2)

/-- JS indexing `keys[i]` with a possibly negative index: out-of-range
gives `undefined`. -/
def jsIndex (keys : List ℕ) (i : ℤ) : Option ℕ :=
  if 0 ≤ i then keys.get? i.toNat else none

/-- Model of `getKeyAt` (src/generators/semantic.js, line 63):
`keys[index] ?? fallback ?? keys[0]`. -/
def getKeyAt (keys : List ℕ) (index : ℤ) (fallback : Option ℕ) : Option ℕ :=
  match jsIndex keys index with
  | some k => some k
  | none =>
    match fallback with
    | some f => some f
    | none => keys.head?

/-- Model of `getSortedKeys` (src/generators/semantic.js, lines 53-54): the scale's
numeric keys, ascending. -/
def getSortedKeys (m : List (ℕ × String)) : List ℕ :=
  (m.map Prod.fst).insertionSort (· ≤ ·)

/-- Model of `ref` (src/generators/semantic.js, line 39): wrap a token path in
braces. -/
def refStr (tokenPath : String) : String := "\x7b" ++ tokenPath ++ "\x7d"

/-- JS template-literal rendering of a possibly-undefined key
(`undefined` prints as the string "undefined"). -/
def showKey : Option ℕ → String
  | some n => toString n
  | none => "undefined"

/-- Model of `buildColorRef` (src/generators/semantic.js, lines 77-78). -/
def colorRefStr (category : String) (scale : Option ℕ) : String :=
  refStr ("color." ++ category ++ "." ++ showKey scale)

/-- Model of `neutralRef` (src/generators/semantic.js, line 86). -/
def neutralRefStr (scale : Option ℕ) : String := colorRefStr "neutral" scale

/-- Model of `primitives.color.neutral || {}` (src/generators/semantic.js, line 80). -/
def neutralScale (colorTree : ColorTree) : List (ℕ × String) :=
  (lookupKey colorTree "neutral").getD []

/-- Model of `neutralKeys` (src/generators/semantic.js, line 81). -/
def neutralKeys (colorTree : ColorTree) : List ℕ :=
  getSortedKeys (neutralScale colorTree)

/-- Model of `lightest` (src/generators/semantic.js, line 82). -/
def lightestKey (colorTree : ColorTree) : Option ℕ :=
  getKeyAt (neutralKeys colorTree) 0 none

/-- Model of `darkest` (src/generators/semantic.js, line 83). -/
def darkestKey (colorTree : ColorTree) : Option ℕ :=
  getKeyAt (neutralKeys colorTree) ((neutralKeys colorTree).length - 1 : ℤ) none

/-- Model of `mid` (src/generators/semantic.js, line 84), middle index
`floor(length / 2)`. -/
def midKey (colorTree : ColorTree) : Option ℕ :=
  getKeyAt (neutralKeys colorTree) ((neutralKeys colorTree).length / 2 : ℕ) none

/-- Model of `colorCategories` (src/generators/semantic.js, lines 88-90): every hue
category of the color tier except neutral, in key order. -/
def colorCategories (colorTree : ColorTree) : List String :=
  (colorTree.map Prod.fst).filter fun c => decide (c ≠ "neutral")

/-- Model of `primary` (src/generators/semantic.js, line 91):
`colorCategories[0] || "blue"` (the empty string is the only falsy
category string). -/
def primaryCategory (colorTree : ColorTree) : String :=
  match colorCategories colorTree with
  | [] => "blue"
  | c :: _ => if c = "" then "blue" else c

/-- Model of `primaryKeys` (src/generators/semantic.js, line 92). -/
def primaryKeys (colorTree : ColorTree) : List ℕ :=
  getSortedKeys ((lookupKey colorTree (primaryCategory colorTree)).getD [])

/-- Model of `primaryMid` (src/generators/semantic.js, line 93). -/
def primaryMid (colorTree : ColorTree) : Option ℕ :=
  getKeyAt (primaryKeys colorTree) ((primaryKeys colorTree).length / 2 : ℕ) none

/-- Model of `InteractiveStates` (src/generators/semantic.js, lines 97-119). -/
structure InteractiveStates where
  default : String
  hover : String
  active : String
  disabled : String
deriving DecidableEq, Repr

/-- Model of `buildInteractiveStates` (src/generators/semantic.js, lines 110-119). -/
def buildInteractiveStates (colorTree : ColorTree) (category : String)
    (keys : List ℕ) : InteractiveStates :=
  let midIndex : ℕ := keys.length / 2
  { default := colorRefStr category (getKeyAt keys (midIndex : ℤ) none)
    hover := colorRefStr category
      (getKeyAt keys ((midIndex : ℤ) + 1) (jsIndex keys (keys.length - 1 : ℤ)))
    active := colorRefStr category (getKeyAt keys (keys.length - 1 : ℤ) none)
    disabled := neutralRefStr (midKey colorTree) }

/-- Model of `semantic.interactive.primary` (src/generators/semantic.js, line 200). -/
def interactivePrimary (colorTree : ColorTree) : InteractiveStates :=
  buildInteractiveStates colorTree (primaryCategory colorTree)
    (primaryKeys colorTree)

/-- The `semantic.surface` section (src/generators/semantic.js, lines
177-182). -/
structure SurfaceTokens where
  default : String
  secondary : String
  tertiary : String
  inverse : String
deriving DecidableEq, Repr

/-- The `semantic.text` section (src/generators/semantic.js, lines
183-192). -/
structure TextTokens where
  primary : String
  secondary : String
  tertiary : String
  inverse : String
  disabled : String
  link : String
deriving DecidableEq, Repr

/-- The `semantic.border` section (src/generators/semantic.js, lines
193-198). -/
structure BorderTokens where
  default : String
  subtle : String
  strong : String
  focus : String
deriving DecidableEq, Repr

/-- Model of `semantic.surface` (src/generators/semantic.js, lines 177-182). -/
def semanticSurface (colorTree : ColorTree) : SurfaceTokens :=
  { default := neutralRefStr (lightestKey colorTree)
    secondary := neutralRefStr
      (getKeyAt (neutralKeys colorTree) 1 (lightestKey colorTree))
    tertiary := neutralRefStr
      (getKeyAt (neutralKeys colorTree) 2 (midKey colorTree))
    inverse := neutralRefStr (darkestKey colorTree) }

/-- Model of `semantic.text` (src/generators/semantic.js, lines 183-192). -/
def semanticText (colorTree : ColorTree) : TextTokens :=
  { primary := neutralRefStr (darkestKey colorTree)
    secondary := neutralRefStr
      (getKeyAt (neutralKeys colorTree) ((neutralKeys colorTree).length - 2 : ℤ)
        (darkestKey colorTree))
    tertiary := neutralRefStr (midKey colorTree)
    inverse := neutralRefStr (lightestKey colorTree)
    disabled := neutralRefStr (midKey colorTree)
    link := colorRefStr (primaryCategory colorTree) (primaryMid colorTree) }

/-- Model of `semantic.border` (src/generators/semantic.js, lines 193-198). -/
def semanticBorder (colorTree : ColorTree) : BorderTokens :=
  { default := neutralRefStr
      (getKeyAt (neutralKeys colorTree) 2 (midKey colorTree))
    subtle := neutralRefStr
      (getKeyAt (neutralKeys colorTree) 1 (lightestKey colorTree))
    strong := neutralRefStr
      (getKeyAt (neutralKeys colorTree) ((neutralKeys colorTree).length - 2 : ℤ)
        (darkestKey colorTree))
    focus := colorRefStr (primaryCategory colorTree) (primaryMid colorTree) }

/-- The §8 end-to-end example color list of spec.md. -/
def exampleColors : List String :=
  ["#3b82f6", "#10b981", "#ef4444", "#ffffff", "#000000"]

/-- The primitive color tier built from the §8 example colors. -/
def exampleColorTree : ColorTree :=
  buildColorPrimitives (groupColors exampleColors)

/-- A raw token leaf for validation (src/commands/validate.js): the four
possibly-present keys `$value`, `$type`, `value`, `type`.  `none` models an
absent key; an explicit JSON null is `some JsonVal.null`.  (A key present
with an `undefined` value cannot occur in parsed JSON.) -/
structure RawToken where
  dollarValue : Option JsonVal
  dollarType : Option JsonVal
  value : Option JsonVal
  vtype : Option JsonVal
deriving DecidableEq, Repr

/-- JS nullish coalescing `a ?? b` on optional JSON values: `undefined`
(`none`) and `null` fall through to `b`. -/
def nullish (a b : Option JsonVal) : Option JsonVal :=
  match a with
  | none => b
  | some JsonVal.null => b
  | some v => some v

/-- Issue severities of src/commands/validate.js. -/
inductive Severity where
  | error
  | warning
  | info
deriving DecidableEq, Repr

/-- Model of `ValidationIssue` of src/commands/validate.js. -/
structure ValidationIssue where
  path : String
  file : String
  severity : Severity
  code : String
  message : String
deriving DecidableEq, Repr

/-- Model of `DTCG_TYPES` (src/commands/validate.js, lines 100-115). -/
def DTCG_TYPES : List String :=
  ["color", "dimension", "fontFamily", "fontWeight", "duration",
    "cubicBezier", "number", "strokeStyle", "border", "transition",
    "shadow", "gradient", "typography", "fontStyle"]

/-- Model of `validateToken` (src/commands/validate.js, lines 125-228), issue checks
in source order.  A leaf models an object with `$value` or `value` present,
which is the only shape the callers pass. -/
def validateToken (token : RawToken) (tokenPath file : String)
    (allPaths : List String) : List ValidationIssue :=
  let hasDtcgValue := token.dollarValue.isSome
  let hasDtcgType := token.dollarType.isSome
  let hasLegacyValue := token.value.isSome
  let hasLegacyType := token.vtype.isSome
  let missingValue : List ValidationIssue :=
    if ¬hasDtcgValue ∧ ¬hasLegacyValue then
      [{ path := tokenPath, file := file, severity := .error,
         code := "MISSING_VALUE",
         message := "Token is missing a value ($value or value)" }]
    else []
  let missingType : List ValidationIssue :=
    if ¬hasDtcgType ∧ ¬hasLegacyType then
      [{ path := tokenPath, file := file, severity := .warning,
         code := "MISSING_TYPE",
         message := "Token is missing a type ($type or type)" }]
    else []
  let mixedFormat : List ValidationIssue :=
    if (hasDtcgValue ∧ hasLegacyValue) ∨ (hasDtcgType ∧ hasLegacyType) then
      [{ path := tokenPath, file := file, severity := .warning,
         code := "MIXED_FORMAT",
         message := "Token mixes DTCG ($value/$type) and legacy (value/type) formats" }]
    else []
  let legacyFormat : List ValidationIssue :=
    if hasLegacyValue ∧ ¬hasDtcgValue then
      [{ path := tokenPath, file := file, severity := .info,
         code := "LEGACY_FORMAT",
         message := "Token uses legacy format. Consider migrating to DTCG ($value/$type)" }]
    else []
  let typeVal := nullish token.dollarType token.vtype
  let unknownType : List ValidationIssue :=
    match typeVal with
    | some (JsonVal.str s) =>
      if s ≠ "" ∧ ¬(s ∈ DTCG_TYPES) then
        [{ path := tokenPath, file := file, severity := .warning,
           code := "UNKNOWN_TYPE",
           message := "Unknown token type \"" ++ s ++ "\". Valid types: "
             ++ String.intercalate ", " DTCG_TYPES }]
      else []
    | _ => []
  let valueVal := nullish token.dollarValue token.value
  let emptyValue : List ValidationIssue :=
    if valueVal = some (JsonVal.str "") ∨ valueVal = some JsonVal.null ∨
        valueVal = none then
      [{ path := tokenPath, file := file, severity := .error,
         code := "EMPTY_VALUE",
         message := "Token has an empty or null value" }]
    else []
  let unresolvedRef : List ValidationIssue :=
    match valueVal with
    | some (JsonVal.str s) =>
      if s.startsWith "\x7b" ∧ s.endsWith "\x7d" then
        let refPath := (s.drop 1).dropRight 1
        if ¬(refPath ∈ allPaths) then
          [{ path := tokenPath, file := file, severity := .error,
             code := "UNRESOLVED_REF",
             message := "Unresolved reference: " ++ s }]
        else []
      else []
    | _ => []
  missingValue ++ missingType ++ mixedFormat ++ legacyFormat ++ unknownType
    ++ emptyValue ++ unresolvedRef

/-- Path joining of the validation walks:
`prefix ? prefix + "." + key : key`. -/
def joinPath (pre key : String) : String :=
  if pre = "" then key else pre ++ "." ++ key

mutual

/-- A token tree (parsed JSON object): a node exposing `$value` or `value`
is a leaf — exactly the test `"$value" in o || "value" in o` used by the
walkers of src/commands/validate.js — and any other object is a group.
The children list keeps JSON insertion order; it is a mutual inductive so
that the walkers below are structural recursions. -/
inductive TokenNode where
  | leaf (token : RawToken)
  | group (children : TokenChildren)

/-- Ordered children of a group node. -/
inductive TokenChildren where
  | nil
  | cons (key : String) (node : TokenNode) (rest : TokenChildren)

end

mutual

/-- Model of `collectTokenPaths` (src/commands/validate.js, lines 236-262): all leaf
paths; keys starting with `$` are skipped. -/
def collectTokenPaths : TokenNode → String → List String
  | .leaf _, pre => [pre]
  | .group children, pre => collectTokenPathsChildren children pre

/-- Child iteration of `collectTokenPaths`. -/
def collectTokenPathsChildren : TokenChildren → String → List String
  | .nil, _ => []
  | .cons key node rest, pre =>
    (if key.startsWith "$" then [] else collectTokenPaths node (joinPath pre key))
      ++ collectTokenPathsChildren rest pre

end

mutual

/-- The `validate` walk inside `validateFile` (src/commands/validate.js,
lines 306-330): per leaf, count it and emit its `validateToken` issues in
walk order; the per-severity partition happens afterwards. -/
def validateNode (allPaths : List String) (file : String) :
    TokenNode → String → List ValidationIssue × ℕ
  | .leaf t, pre => (validateToken t pre file allPaths, 1)
  | .group children, pre => validateNodeChildren allPaths file children pre

/-- Child iteration of the `validate` walk. -/
def validateNodeChildren (allPaths : List String) (file : String) :
    TokenChildren → String → List ValidationIssue × ℕ
  | .nil, _ => ([], 0)
  | .cons key node rest, pre =>
    let sub := if key.startsWith "$" then ([], 0)
      else validateNode allPaths file node (joinPath pre key)
    let rest' := validateNodeChildren allPaths file rest pre
    (sub.1 ++ rest'.1, sub.2 + rest'.2)

end

mutual

/-- Model of `checkDuplicates` inside `validateFile` (src/commands/validate.js,
lines 333-355): warn when a leaf path repeats, threading the seen-path
set. -/
def checkDuplicates (file : String) :
    TokenNode → String → List String → List ValidationIssue × List String
  | .leaf _, pre, seen =>
    (if pre ∈ seen then
      [{ path := pre, file := file, severity := .warning,
         code := "DUPLICATE",
         message := "Duplicate token definition: " ++ pre }]
     else [], pre :: seen)
  | .group children, pre, seen => checkDuplicatesChildren file children pre seen

/-- Child iteration of `checkDuplicates`. -/
def checkDuplicatesChildren (file : String) :
    TokenChildren → String → List String → List ValidationIssue × List String
  | .nil, _, seen => ([], seen)
  | .cons key node rest, pre, seen =>
    let sub := if key.startsWith "$" then ([], seen)
      else checkDuplicates file node (joinPath pre key) seen
    let rest' := checkDuplicatesChildren file rest pre sub.2
    (sub.1 ++ rest'.1, rest'.2)

end

/-- Model of `ValidationReport` of src/commands/validate.js. -/
structure ValidationReport where
  file : String
  errors : List ValidationIssue
  warnings : List ValidationIssue
  info : List ValidationIssue
  tokenCount : ℕ
  valid : Bool
deriving DecidableEq, Repr

/-- Model of `validateFile` (src/commands/validate.js, lines 270-365) on a parsed
token tree (the JSON-parse-failure branch is out of this model): walk the
tree, partition issues by severity, append duplicate warnings, and mark
the file valid exactly when there is no error. -/
def validateFile (fileName : String) (content : TokenNode)
    (allPaths : List String) : ValidationReport :=
  let walk := validateNode allPaths fileName content ""
  let dup := checkDuplicates fileName content "" []
  let errors := walk.1.filter fun i => decide (i.severity = Severity.error)
  let warnings :=
    (walk.1.filter fun i => decide (i.severity = Severity.warning)) ++ dup.1
  let infoIssues := walk.1.filter fun i => decide (i.severity = Severity.info)
  { file := fileName, errors := errors, warnings := warnings,
    info := infoIssues, tokenCount := walk.2, valid := errors.isEmpty }

/-- Model of `findCycle` inside `_detectCircularRefs` (src/commands/validate.js,
lines 382-396), with explicit fuel: the JS recursion terminates because
every step adds a distinct map key to the visited set, so
`tokens.length + 1` fuel is always enough. -/
def findCycle (tokens : List (String × RawToken)) :
    ℕ → String → List String → Option String
  | 0, _, _ => none
  | fuel + 1, path, visited =>
    if path ∈ visited then some path
    else
      match lookupKey tokens path with
      | none => none
      | some t =>
        match nullish t.dollarValue t.value with
        | some (JsonVal.str s) =>
          if s.startsWith "\x7b" then
            findCycle tokens fuel ((s.drop 1).dropRight 1) (path :: visited)
          else none
        | _ => none

/-- Model of `_detectCircularRefs` (src/commands/validate.js, lines 373-412).  The
function is defined by the source but never invoked by the validation run;
its error message interpolates the starting path and the first repeated
path (`path -> cycle`). -/
def detectCircularRefs (tokens : List (String × RawToken)) (file : String) :
    List ValidationIssue :=
  tokens.filterMap fun e =>
    match findCycle tokens (tokens.length + 1) e.1 [] with
    | some cycle =>
      some { path := e.1, file := file, severity := .error,
             code := "CIRCULAR_REF",
             message := "Circular reference detected: " ++ e.1 ++ " -> " ++ cycle }
    | none => none

/-- The exit decision of the validate command (src/commands/validate.js,
lines 602-610): failure when any file is invalid, or in `--strict` mode
when any file has warnings. -/
def validateExitFailure (strict : Bool) (reports : List ValidationReport) :
    Bool :=
  let allValid := reports.all (fun r => r.valid)
  let hasWarnings := reports.any (fun r => r.warnings.length > 0)
  !allValid || (strict && hasWarnings)

/-- Token `a`, referencing `b` (spec §8 cycle example). -/
def cyclicTokenA : RawToken :=
  { dollarValue := some (JsonVal.str "\x7bb\x7d")
    dollarType := some (JsonVal.str "color")
    value := none, vtype := none }

/-- Token `b`, referencing `a`. -/
def cyclicTokenB : RawToken :=
  { dollarValue := some (JsonVal.str "\x7ba\x7d")
    dollarType := some (JsonVal.str "color")
    value := none, vtype := none }

/-- A token file holding the two mutually-referencing tokens. -/
def cyclicTree : TokenNode :=
  .group (.cons "a" (.leaf cyclicTokenA) (.cons "b" (.leaf cyclicTokenB) .nil))

/-- The spec's hue buckets (§4.1 of spec.md), written from the spec's words
for comparison with the source's `getHueCategoryFromValue`. -/
def specHueBucket (h : ℤ) : String :=
  if (345 ≤ h ∧ h < 360) ∨ (0 ≤ h ∧ h < 15) then "red"
  else if 15 ≤ h ∧ h < 45 then "orange"
  else if 45 ≤ h ∧ h < 75 then "yellow"
  else if 75 ≤ h ∧ h < 165 then "green"
  else if 165 ≤ h ∧ h < 195 then "cyan"
  else if 195 ≤ h ∧ h < 255 then "blue"
  else if 255 ≤ h ∧ h < 285 then "purple"
  else "pink"

end Tokenize

namespace Tokenize

/-- The hue bucketer never yields "neutral": neutrality comes only from the
saturation test in `categorizeHexColor`. -/
theorem getHueCategory_ne_neutral (h : ℤ) : getHueCategoryFromValue h ≠ "neutral" := by
  unfold getHueCategoryFromValue
  split_ifs <;> decide

set_option maxHeartbeats 1000000 in
/-- C3: a color categorizes as "neutral" exactly when its rounded saturation
is below 10, regardless of hue; otherwise the rounded hue is bucketed by the
§4.1 ranges (red [345,360)∪[0,15), orange [15,45), yellow [45,75), green
[75,165), cyan [165,195), blue [195,255), purple [255,285), pink [285,345)),
each boundary value falling in the higher bucket. -/
theorem categorize_neutral_iff_and_hue_buckets :
    (∀ r g b : ℕ,
      categorizeRgb r g b = "neutral" ↔ (convertHexColorToHsl r g b).saturation < 10) ∧
    (∀ h : ℤ, 0 ≤ h → h < 360 → getHueCategoryFromValue h = specHueBucket h) := by
  constructor
  · intro r g b
    unfold categorizeRgb
    by_cases hs : (convertHexColorToHsl r g b).saturation < 10
    · simp [hs]
    · simp only [hs, if_neg hs, iff_false]
      exact getHueCategory_ne_neutral _
  · intro h h0 h360
    unfold getHueCategoryFromValue specHueBucket
    split_ifs <;> first | rfl | omega

/-- Witness for C3: the boundary hue 15 falls in the orange bucket in both
the source's classifier and the spec's table. -/
theorem categorize_neutral_iff_and_hue_buckets_witness :
    getHueCategoryFromValue 15 = specHueBucket 15 ∧ specHueBucket 15 = "orange" ∧
      (categorizeRgb 255 255 255 = "neutral" ↔
        (convertHexColorToHsl 255 255 255).saturation < 10) :=
  ⟨categorize_neutral_iff_and_hue_buckets.2 15 (by decide) (by decide),
    by with_unfolding_all decide,
    categorize_neutral_iff_and_hue_buckets.1 255 255 255⟩

/-- C4: for the six pure hues at full saturation and 50% lightness,
hex → HSL → hex reproduces the original hex string. -/
theorem pure_hue_round_trip :
    roundTripHex "#ff0000" = some "#ff0000" ∧
    roundTripHex "#00ff00" = some "#00ff00" ∧
    roundTripHex "#0000ff" = some "#0000ff" ∧
    roundTripHex "#00ffff" = some "#00ffff" ∧
    roundTripHex "#ff00ff" = some "#ff00ff" ∧
    roundTripHex "#ffff00" = some "#ffff00" := by
  refine ⟨?_, ?_, ?_, ?_, ?_, ?_⟩ <;> with_unfolding_all decide

/-- Model of `addWithDependencies` keeps the accumulator inside the four
dependency-ordered prefix chains. -/
theorem addWithDependencies_chain (acc : List Layer) (hacc : acc ∈ chainAccs)
    (l : Layer) : addWithDependencies acc l ∈ chainAccs := by
  simp only [chainAccs, List.mem_cons, List.not_mem_nil, or_false] at hacc ⊢
  rcases hacc with rfl | rfl | rfl | rfl <;> cases l <;> decide

/-- Membership after one `addWithDependencies` step: exactly the old
members plus the transitive closure of the added layer. -/
theorem mem_addWithDependencies (acc : List Layer) (hacc : acc ∈ chainAccs)
    (l m : Layer) :
    m ∈ addWithDependencies acc l ↔ m ∈ acc ∨ m ∈ depClosure l := by
  simp only [chainAccs, List.mem_cons, List.not_mem_nil, or_false] at hacc
  rcases hacc with rfl | rfl | rfl | rfl <;> cases l <;> cases m <;> decide

/-- Membership in the `addWithDependencies` fold: the union of the
transitive closures of the folded layers. -/
theorem mem_foldl_addWithDependencies (ls : List Layer) (acc : List Layer)
    (hacc : acc ∈ chainAccs) (m : Layer) :
    m ∈ ls.foldl addWithDependencies acc ↔
      m ∈ acc ∨ ∃ r ∈ ls, m ∈ depClosure r := by
  induction ls generalizing acc with
  | nil => simp
  | cons x xs ih =>
    rw [List.foldl_cons, ih _ (addWithDependencies_chain acc hacc x),
      mem_addWithDependencies acc hacc x m]
    simp only [List.exists_mem_cons_iff]
    tauto

/-- The fold of `addWithDependencies` stays inside the prefix chains. -/
theorem foldl_addWithDependencies_chain (ls : List Layer) (acc : List Layer)
    (hacc : acc ∈ chainAccs) :
    ls.foldl addWithDependencies acc ∈ chainAccs := by
  induction ls generalizing acc with
  | nil => simpa using hacc
  | cons x xs ih =>
    exact List.foldl_cons _ _ ▸ ih _ (addWithDependencies_chain acc hacc x)

/-- C5: the orchestrator's generation list is the de-duplicated transitive
dependency closure of the request, in dependency order; a listed tier runs
iff it was explicitly requested or its artifact does not exist (`--force`
runs the whole list); requesting only the component tier with no existing
artifacts generates primitives, then semantic, then components. -/
theorem generateLayers_order_and_run_decision (layers : List Layer)
    (force : Bool) (artifactExists : Layer → Bool) :
    (toGenerate layers).Nodup ∧
    (∀ m, m ∈ toGenerate layers ↔ ∃ r ∈ layers, m ∈ depClosure r) ∧
    (toGenerate layers).Pairwise (fun a b => layerRank a < layerRank b) ∧
    (∀ l, l ∈ layersToRun layers force artifactExists ↔
      l ∈ toGenerate layers ∧
        (force = true ∨ l ∈ layers ∨ artifactExists l = false)) ∧
    layersToRun [Layer.components] false (fun _ => false) =
      [Layer.primitives, Layer.semantic, Layer.components] := by
  have hchain : toGenerate layers ∈ chainAccs :=
    foldl_addWithDependencies_chain layers [] (by decide)
  refine ⟨?_, ?_, ?_, ?_, by rfl⟩
  · simp only [chainAccs, List.mem_cons, List.not_mem_nil, or_false] at hchain
    rcases hchain with h | h | h | h <;> rw [h] <;> decide
  · intro m
    simpa using mem_foldl_addWithDependencies layers [] (by decide) m
  · simp only [chainAccs, List.mem_cons, List.not_mem_nil, or_false] at hchain
    rcases hchain with h | h | h | h <;> rw [h] <;> decide
  · intro l
    unfold layersToRun
    cases force with
    | true => simp
    | false =>
      simp only [Bool.false_eq_true, if_false, List.mem_filter, runFilter,
        false_or]
      constructor
      · rintro ⟨hmem, hfil⟩
        refine ⟨hmem, ?_⟩
        by_cases hex : artifactExists l = false
        · exact Or.inr hex
        · left
          simp only [hex, if_false] at hfil
          by_cases hl : l ∈ layers
          · exact hl
          · simp [hl] at hfil
      · rintro ⟨hmem, hcond⟩
        refine ⟨hmem, ?_⟩
        rcases hcond with hl | hex
        · by_cases hx : artifactExists l = false <;> simp [hx, hl]
        · simp [hex]

/-- Every member of an upsert result is the new binding or an old member. -/
theorem mem_upsert {α β : Type} [DecidableEq α] (l : List (α × β)) (k : α)
    (v : β) (p : α × β) (hp : p ∈ upsert l k v) : p = (k, v) ∨ p ∈ l := by
  induction l with
  | nil => simpa [upsert] using hp
  | cons hd tl ih =>
    obtain ⟨k', v'⟩ := hd
    simp only [upsert] at hp
    by_cases hk : k' = k
    · rw [if_pos hk] at hp
      rcases List.mem_cons.mp hp with h | h
      · exact Or.inl h
      · exact Or.inr (List.mem_cons_of_mem _ h)
    · rw [if_neg hk] at hp
      rcases List.mem_cons.mp hp with h | h
      · exact Or.inr (h ▸ List.mem_cons_self _ _)
      · rcases ih h with h' | h'
        · exact Or.inl h'
        · exact Or.inr (List.mem_cons_of_mem _ h')

/-- A successful first-binding lookup returns a member of the list. -/
theorem lookupKey_mem {α β : Type} [DecidableEq α] (l : List (α × β)) (k : α)
    (v : β) (h : lookupKey l k = some v) : (k, v) ∈ l := by
  induction l with
  | nil => simp [lookupKey] at h
  | cons hd tl ih =>
    obtain ⟨k', v'⟩ := hd
    simp only [lookupKey] at h
    by_cases hk : k' = k
    · rw [if_pos hk] at h
      cases h
      exact hk ▸ List.mem_cons_self _ _
    · rw [if_neg hk] at h
      exact List.mem_cons_of_mem _ (ih h)

/-- Fold invariant for the spacing scale: every binding `(s, v)` of the
scale has `s = round(v / base)`, `s ∈ [1, 50]`, and `v` a kept magnitude. -/
theorem generateSpacingScale_invariant (base : ℚ) (xs : List ℚ)
    (acc : List (ℤ × ℚ))
    (hxs : ∀ x ∈ xs, 1 ≤ x ∧ x ≤ 200)
    (hacc : ∀ p ∈ acc, jsRound (p.2 / base) = p.1 ∧ 1 ≤ p.1 ∧ p.1 ≤ 50 ∧
      1 ≤ p.2 ∧ p.2 ≤ 200) :
    ∀ p ∈ xs.foldl (assignStep base) acc,
      jsRound (p.2 / base) = p.1 ∧ 1 ≤ p.1 ∧ p.1 ≤ 50 ∧
        1 ≤ p.2 ∧ p.2 ≤ 200 := by
  induction xs generalizing acc with
  | nil => simpa using hacc
  | cons x rest ih =>
    intro p hp
    rw [List.foldl_cons] at hp
    refine ih _ (fun y hy => hxs y (List.mem_cons_of_mem _ hy)) ?_ p hp
    intro q hq
    unfold assignStep at hq
    by_cases hstep : 1 ≤ jsRound (x / base) ∧ jsRound (x / base) ≤ 50
    · rw [if_pos hstep] at hq
      rcases mem_upsert _ _ _ _ hq with h | h
      · subst h
        exact ⟨rfl, hstep.1, hstep.2, (hxs x (List.mem_cons_self _ _)).1,
          (hxs x (List.mem_cons_self _ _)).2⟩
      · exact hacc q h
    · rw [if_neg hstep] at hq
      exact hacc q hq

/-- Model of `jsRound` is monotone. -/
theorem jsRound_mono {a b : ℚ} (h : a ≤ b) : jsRound a ≤ jsRound b :=
  Int.floor_le_floor (by linarith)

/-- Kept spacing magnitudes lie in [1, 200]. -/
theorem mem_uniqueSorted_bounds (values : List SpacingInput) (x : ℚ)
    (hx : x ∈ uniqueSorted (spacingPxValues values)) : 1 ≤ x ∧ x ≤ 200 := by
  unfold uniqueSorted at hx
  rw [(List.perm_insertionSort _ _).mem_iff, List.mem_dedup] at hx
  unfold spacingPxValues at hx
  rw [List.mem_filter] at hx
  simpa using hx.2

/-- C7: the spacing scale is strictly monotone — of any two steps present
in the final scale, the larger step holds the strictly larger pixel
magnitude. -/
theorem generateSpacingScale_strict_mono (base : ℚ)
    (values : List SpacingInput) (s1 s2 : ℤ) (v1 v2 : ℚ)
    (hkept : 2 ≤ (uniqueSorted (spacingPxValues values)).length)
    (hlt : s1 < s2)
    (h1 : lookupKey (generateSpacingScale base values) s1 = some v1)
    (h2 : lookupKey (generateSpacingScale base values) s2 = some v2) :
    v1 < v2 := by
  have hinv := generateSpacingScale_invariant base
    (uniqueSorted (spacingPxValues values)) []
    (fun x hx => mem_uniqueSorted_bounds values x hx) (by simp)
  have i1 : jsRound (v1 / base) = s1 ∧ 1 ≤ s1 ∧ s1 ≤ 50 ∧ 1 ≤ v1 ∧ v1 ≤ 200 :=
    hinv _ (lookupKey_mem _ _ _ h1)
  have i2 : jsRound (v2 / base) = s2 ∧ 1 ≤ s2 ∧ s2 ≤ 50 ∧ 1 ≤ v2 ∧ v2 ≤ 200 :=
    hinv _ (lookupKey_mem _ _ _ h2)
  obtain ⟨hr1, hs1lo, _, hv1lo, _⟩ := i1
  obtain ⟨hr2, _, _, hv2lo, _⟩ := i2
  have hbase : 0 < base := by
    by_contra hb
    push_neg at hb
    have hdiv : v1 / base ≤ 0 := by
      rcases lt_or_eq_of_le hb with hb' | hb'
      · exact le_of_lt (div_neg_of_pos_of_neg (by linarith) hb')
      · simp [hb']
    have : jsRound (v1 / base) ≤ jsRound 0 := jsRound_mono hdiv
    have h0 : jsRound (0 : ℚ) = 0 := by
      unfold jsRound
      norm_num
    omega
  by_contra hge
  push_neg at hge
  have hdivle : v2 / base ≤ v1 / base := by gcongr
  have := jsRound_mono hdivle
  omega

/-- Witness for C7: base 4 with inputs 4px and 8px produces steps 1 ↦ 4 and
2 ↦ 8, and the theorem yields 4 < 8. -/
theorem generateSpacingScale_strict_mono_witness :
    2 ≤ (uniqueSorted (spacingPxValues
        [SpacingInput.px 4, SpacingInput.px 8])).length ∧
    (1 : ℤ) < 2 ∧
    lookupKey (generateSpacingScale 4 [SpacingInput.px 4, SpacingInput.px 8])
        1 = some 4 ∧
    lookupKey (generateSpacingScale 4 [SpacingInput.px 4, SpacingInput.px 8])
        2 = some 8 ∧
    (4 : ℚ) < 8 :=
  ⟨by with_unfolding_all decide, by decide, by with_unfolding_all decide,
    by with_unfolding_all decide,
    generateSpacingScale_strict_mono 4 [SpacingInput.px 4, SpacingInput.px 8]
      1 2 4 8 (by with_unfolding_all decide) (by decide)
      (by with_unfolding_all decide) (by with_unfolding_all decide)⟩

/-- C1 counterexample: a path whose reference and generated tokens carry
the same value but different types is counted as matched, not classified
as a type-mismatch. -/
theorem compareTokenMaps_equal_value_diff_type_matches :
    (compareTokenMaps
        [("a", TokenEntry.mk (JsonVal.str "1") (some "dimension"))]
        [("a", TokenEntry.mk (JsonVal.str "1") (some "color"))]).matched = 1 ∧
    (compareTokenMaps
        [("a", TokenEntry.mk (JsonVal.str "1") (some "dimension"))]
        [("a", TokenEntry.mk (JsonVal.str "1") (some "color"))]).mismatched
        = [] ∧
    (some "color" : Option String) ≠ some "dimension" := by
  refine ⟨rfl, rfl, by decide⟩

/-- C1 (amended): for paths present in both maps the diff engine first
compares the serialized values — when they differ, the pair is classified
"type-mismatch" if the types also differ and "mismatch" otherwise; when the
values are equal the pair is counted matched regardless of the types;
reference paths absent from the generated map are reported missing. -/
theorem compareTokenMaps_classification
    (generated refs : List (String × TokenEntry)) :
    (compareTokenMaps generated refs).missing
        = (refs.filter fun e =>
            decide (lookupKey generated e.1 = none)).map Prod.fst ∧
    (compareTokenMaps generated refs).mismatched
        = refs.filterMap (fun e =>
            match lookupKey generated e.1 with
            | none => none
            | some g =>
              if e.2.value ≠ g.value then
                some (e.1,
                  if e.2.vtype ≠ g.vtype then "type-mismatch" else "mismatch")
              else none) ∧
    (compareTokenMaps generated refs).matched
        = (refs.filter fun e =>
            match lookupKey generated e.1 with
            | some g => decide (e.2.value = g.value)
            | none => false).length := by
  refine ⟨?_, ?_, ?_⟩ <;>
  · simp only [compareTokenMaps]
    induction refs with
    | nil => rfl
    | cons hd tl ih =>
      obtain ⟨path, refToken⟩ := hd
      simp only [comparePass, List.filter_cons, List.filterMap_cons]
      cases hg : lookupKey generated path with
      | none => simp [hg, ih]
      | some genToken =>
        by_cases hv : refToken.value = genToken.value
        · simp [hg, hv, ih]
        · by_cases ht : refToken.vtype = genToken.vtype <;>
            simp [hg, hv, ht, ih]

/-- C2 counterexample: the validation run on a file holding two mutually
referencing tokens (`a: \x7bb\x7d`, `b: \x7ba\x7d`) produces no issues at
all — in particular no circular-reference error — and marks the file
valid, because each reference resolves and `_detectCircularRefs` is never
invoked by the run. -/
theorem cyclic_tokens_validate_clean :
    (validateFile "tokens.json" cyclicTree
        (collectTokenPaths cyclicTree "")).errors = [] ∧
    (validateFile "tokens.json" cyclicTree
        (collectTokenPaths cyclicTree "")).warnings = [] ∧
    (validateFile "tokens.json" cyclicTree
        (collectTokenPaths cyclicTree "")).info = [] ∧
    (validateFile "tokens.json" cyclicTree
        (collectTokenPaths cyclicTree "")).valid = true := by
  with_unfolding_all decide

/-- C2 (amended): the validation report for the two mutually-referencing
tokens contains no circular-reference error (the detector is dead code and
both references resolve); the detector itself, if invoked on that token
map, reports one error per starting path whose message names the starting
path itself (`a -> a`, `b -> b`), not the other token. -/
theorem circular_detector_dead_and_names_start :
    ((validateFile "tokens.json" cyclicTree
        (collectTokenPaths cyclicTree "")).errors = [] ∧
      (validateFile "tokens.json" cyclicTree
        (collectTokenPaths cyclicTree "")).warnings = [] ∧
      (validateFile "tokens.json" cyclicTree
        (collectTokenPaths cyclicTree "")).info = []) ∧
    detectCircularRefs [("a", cyclicTokenA), ("b", cyclicTokenB)]
        "tokens.json"
      = [{ path := "a", file := "tokens.json", severity := .error,
           code := "CIRCULAR_REF",
           message := "Circular reference detected: a -> a" },
         { path := "b", file := "tokens.json", severity := .error,
           code := "CIRCULAR_REF",
           message := "Circular reference detected: b -> b" }] := by
  with_unfolding_all decide

mutual

/-- Duplicate-check issues are always warnings (tree case). -/
theorem checkDuplicates_severity (file : String) (t : TokenNode) (pre : String)
    (seen : List String) :
    ∀ i ∈ (checkDuplicates file t pre seen).1,
      i.severity = Severity.warning := by
  cases t with
  | leaf tok =>
    intro i hi
    simp only [checkDuplicates] at hi
    by_cases hp : pre ∈ seen
    · rw [if_pos hp] at hi
      rcases List.mem_singleton.mp hi with rfl
      rfl
    · rw [if_neg hp] at hi
      cases hi
  | group children =>
    intro i hi
    simp only [checkDuplicates] at hi
    exact checkDuplicatesChildren_severity file children pre seen i hi

/-- Duplicate-check issues are always warnings (children case). -/
theorem checkDuplicatesChildren_severity (file : String) (c : TokenChildren)
    (pre : String) (seen : List String) :
    ∀ i ∈ (checkDuplicatesChildren file c pre seen).1,
      i.severity = Severity.warning := by
  cases c with
  | nil =>
    intro i hi
    cases hi
  | cons key node rest =>
    intro i hi
    simp only [checkDuplicatesChildren] at hi
    rcases List.mem_append.mp hi with h | h
    · by_cases hk : key.startsWith "$"
      · rw [if_pos hk] at h
        cases h
      · rw [if_neg hk] at h
        exact checkDuplicates_severity file node (joinPath pre key) seen i h
    · by_cases hk : key.startsWith "$"
      · rw [if_pos hk] at h
        exact checkDuplicatesChildren_severity file rest pre seen i h
      · rw [if_neg hk] at h
        exact checkDuplicatesChildren_severity file rest pre
          (checkDuplicates file node (joinPath pre key) seen).2 i h

end

/-- A file report's `valid` flag is the emptiness of its error list. -/
theorem validateFile_valid_eq (fileName : String) (content : TokenNode)
    (allPaths : List String) :
    (validateFile fileName content allPaths).valid
      = (validateFile fileName content allPaths).errors.isEmpty := rfl

/-- C6: a validation run exits with failure exactly when some validated
file has an error-severity issue, or — in `--strict` mode — when some file
has a warning-severity issue; the error and warning lists hold issues of
exactly those severities. -/
theorem validate_exit_failure_iff (strict : Bool)
    (files : List (String × TokenNode)) (allPaths : List String) :
    (∀ r ∈ files.map (fun f => validateFile f.1 f.2 allPaths),
      (∀ i ∈ r.errors, i.severity = Severity.error) ∧
      (∀ i ∈ r.warnings, i.severity = Severity.warning)) ∧
    (validateExitFailure strict
        (files.map fun f => validateFile f.1 f.2 allPaths) = true ↔
      (∃ r ∈ files.map (fun f => validateFile f.1 f.2 allPaths),
        r.errors ≠ []) ∨
      (strict = true ∧
        ∃ r ∈ files.map (fun f => validateFile f.1 f.2 allPaths),
          r.warnings ≠ [])) := by
  constructor
  · intro r hr
    obtain ⟨f, _, rfl⟩ := List.mem_map.mp hr
    constructor
    · intro i hi
      have := List.mem_filter.mp hi
      exact of_decide_eq_true this.2
    · intro i hi
      rcases List.mem_append.mp hi with h | h
      · have := List.mem_filter.mp h
        exact of_decide_eq_true this.2
      · exact checkDuplicates_severity _ _ _ _ i h
  · have hvalid : ∀ r ∈ files.map (fun f => validateFile f.1 f.2 allPaths),
        (r.valid = true ↔ r.errors = []) := by
      intro r hr
      obtain ⟨f, _, rfl⟩ := List.mem_map.mp hr
      rw [validateFile_valid_eq]
      exact List.isEmpty_iff
    unfold validateExitFailure
    rw [Bool.or_eq_true, Bool.not_eq_true', Bool.and_eq_true]
    constructor
    · rintro (h | ⟨hs, hw⟩)
      · have h' : ¬ ∀ r ∈ files.map (fun f => validateFile f.1 f.2 allPaths),
            r.valid = true := by
          rw [← List.all_eq_true]
          intro hh
          rw [hh] at h
          cases h
        push_neg at h'
        obtain ⟨r, hr, hrv⟩ := h'
        exact Or.inl ⟨r, hr, fun hnil => hrv ((hvalid r hr).mpr hnil)⟩
      · rw [List.any_eq_true] at hw
        obtain ⟨r, hr, hw'⟩ := hw
        have hlen := of_decide_eq_true hw'
        refine Or.inr ⟨hs, r, hr, fun hnil => ?_⟩
        rw [hnil] at hlen
        simp at hlen
    · rintro (⟨r, hr, hne⟩ | ⟨hs, r, hr, hne⟩)
      · refine Or.inl (Bool.eq_false_iff.mpr fun hall => ?_)
        rw [List.all_eq_true] at hall
        exact hne ((hvalid r hr).mp (hall r hr))
      · refine Or.inr ⟨hs, ?_⟩
        rw [List.any_eq_true]
        exact ⟨r, hr, decide_eq_true (List.length_pos.mpr hne)⟩

/-- In a sorted list every element lies below the last one. -/
theorem sorted_le_getLast :
    ∀ (l : List ℕ), l.Sorted (· ≤ ·) → ∀ x ∈ l, ∀ (h : l ≠ []),
      x ≤ l.getLast h := by
  intro l
  induction l with
  | nil =>
    intro _ x hx
    cases hx
  | cons a t ih =>
    intro hs x hx h
    cases t with
    | nil =>
      rcases List.mem_cons.mp hx with rfl | hx'
      · simp [List.getLast]
      · cases hx'
    | cons b t' =>
      rw [List.getLast_cons (by simp)]
      rcases List.mem_cons.mp hx with rfl | hx'
      · exact le_trans
          ((List.sorted_cons.mp hs).1 b (List.mem_cons_self _ _))
          (ih (List.sorted_cons.mp hs).2 b (List.mem_cons_self _ _) (by simp))
      · exact ih (List.sorted_cons.mp hs).2 x hx' (by simp)

/-- C8: `surface.default` references the neutral scale's key at sorted
index 0 (the minimal, hence lightest, key) and `text.primary` the key at
the last sorted index (the maximal, hence darkest); on the §8 example
colors these resolve to `#ffffff` and `#000000`. -/
theorem surface_default_and_text_primary_extremes :
    (∀ (ct : ColorTree) (hne : neutralKeys ct ≠ []),
      (semanticSurface ct).default
          = neutralRefStr (some ((neutralKeys ct).head hne)) ∧
      (semanticText ct).primary
          = neutralRefStr (some ((neutralKeys ct).getLast hne)) ∧
      (∀ x ∈ neutralKeys ct,
        (neutralKeys ct).head hne ≤ x ∧ x ≤ (neutralKeys ct).getLast hne)) ∧
    (semanticSurface exampleColorTree).default = "\x7bcolor.neutral.100\x7d" ∧
    (semanticText exampleColorTree).primary = "\x7bcolor.neutral.950\x7d" ∧
    lookupKey (neutralScale exampleColorTree) 100 = some "#ffffff" ∧
    lookupKey (neutralScale exampleColorTree) 950 = some "#000000" := by
  refine ⟨?_, ?_, ?_, ?_, ?_⟩
  · intro ct hne
    have hsorted : (neutralKeys ct).Sorted (· ≤ ·) :=
      List.sorted_insertionSort _ _
    obtain ⟨k, rest, hcons⟩ := List.exists_cons_of_ne_nil hne
    have hhead : (neutralKeys ct).head hne = k := by
      simp [hcons]
    have hlight : lightestKey ct = some k := by
      unfold lightestKey getKeyAt jsIndex
      rw [hcons]
      simp
    have hlen : 0 < (neutralKeys ct).length := List.length_pos.mpr hne
    have hdark : darkestKey ct
        = some ((neutralKeys ct).getLast hne) := by
      unfold darkestKey getKeyAt jsIndex
      rw [if_pos (by omega)]
      have htn : (((neutralKeys ct).length : ℤ) - 1).toNat
          = (neutralKeys ct).length - 1 := by omega
      rw [htn, List.getLast_eq_get,
        List.get?_eq_get (by omega)]
    refine ⟨?_, ?_, ?_⟩
    · show neutralRefStr (lightestKey ct) = _
      rw [hlight, hhead]
    · show neutralRefStr (darkestKey ct) = _
      rw [hdark]
    · intro x hx
      constructor
      · rw [hhead]
        rw [hcons] at hsorted hx
        rcases List.mem_cons.mp hx with rfl | hx'
        · exact le_refl _
        · exact (List.sorted_cons.mp hsorted).1 x hx'
      · exact sorted_le_getLast _ hsorted x hx hne
  · with_unfolding_all decide
  · with_unfolding_all decide
  · with_unfolding_all decide
  · with_unfolding_all decide

/-- Witness for C8: the example color tree has nonempty neutral keys, and
the general statement instantiates to it. -/
theorem surface_default_and_text_primary_extremes_witness :
    (neutralKeys exampleColorTree ≠ []) ∧
    (semanticSurface exampleColorTree).default
      = neutralRefStr (some ((neutralKeys exampleColorTree).head
          (by with_unfolding_all decide))) :=
  ⟨by with_unfolding_all decide,
    (surface_default_and_text_primary_extremes.1 exampleColorTree
      (by with_unfolding_all decide)).1⟩

/-- A key outside a map's key set looks up to nothing. -/
theorem lookupKey_eq_none_of_not_mem {β : Type} (l : List (String × β))
    (k : String) (h : ¬ k ∈ l.map Prod.fst) : lookupKey l k = none := by
  induction l with
  | nil => rfl
  | cons hd tl ih =>
    obtain ⟨k', v'⟩ := hd
    simp only [List.map_cons, List.mem_cons] at h
    push_neg at h
    simp only [lookupKey]
    rw [if_neg (fun he => h.1 he.symm)]
    exact ih h.2

/-- C10: when the primitive color tree has no hue category besides
neutral, the semantic builder falls back to the literal category name
"blue", and `text.link`, `border.focus` and the primary interactive states
are emitted as references under `color.blue` (with key `undefined`) even
though no such primitive tokens exist. -/
theorem primary_category_falls_back_to_blue (ct : ColorTree)
    (h : colorCategories ct = []) :
    primaryCategory ct = "blue" ∧
    lookupKey ct "blue" = none ∧
    (semanticText ct).link = "\x7bcolor.blue.undefined\x7d" ∧
    (semanticBorder ct).focus = "\x7bcolor.blue.undefined\x7d" ∧
    (interactivePrimary ct).default = "\x7bcolor.blue.undefined\x7d" ∧
    (interactivePrimary ct).hover = "\x7bcolor.blue.undefined\x7d" ∧
    (interactivePrimary ct).active = "\x7bcolor.blue.undefined\x7d" := by
  have hprim : primaryCategory ct = "blue" := by
    unfold primaryCategory
    rw [h]
  have hblue : lookupKey ct "blue" = none := by
    refine lookupKey_eq_none_of_not_mem ct "blue" fun hmem => ?_
    have := List.filter_eq_nil.mp h "blue" hmem
    simp at this
  have hkeys : primaryKeys ct = [] := by
    unfold primaryKeys
    rw [hprim, hblue]
    rfl
  refine ⟨hprim, hblue, ?_, ?_, ?_, ?_, ?_⟩
  · show colorRefStr (primaryCategory ct) (primaryMid ct) = _
    unfold primaryMid
    rw [hprim, hkeys]
    rfl
  · show colorRefStr (primaryCategory ct) (primaryMid ct) = _
    unfold primaryMid
    rw [hprim, hkeys]
    rfl
  · unfold interactivePrimary buildInteractiveStates
    rw [hprim, hkeys]
    rfl
  · unfold interactivePrimary buildInteractiveStates
    rw [hprim, hkeys]
    rfl
  · unfold interactivePrimary buildInteractiveStates
    rw [hprim, hkeys]
    rfl

/-- Witness for C10: a color tree holding only a neutral scale satisfies
the hypothesis and the fallback conclusions. -/
theorem primary_category_falls_back_to_blue_witness :
    colorCategories [("neutral", [(100, "#ffffff")])] = [] ∧
    primaryCategory [("neutral", [(100, "#ffffff")])] = "blue" :=
  ⟨by with_unfolding_all decide,
    (primary_category_falls_back_to_blue [("neutral", [(100, "#ffffff")])]
      (by with_unfolding_all decide)).1⟩

/-- C9 counterexample: with six input font families, the sixth entry is
dropped by `slice(0, 5)` and receives no name at all in the output scale. -/
theorem buildFontFamilies_sixth_entry_dropped :
    buildFontFamilies ["f1", "f2", "f3", "f4", "f5", "f6"]
      = [("primary", "f1"), ("secondary", "f2"), ("family3", "f3"),
        ("family4", "f4"), ("family5", "f5")] ∧
    ∀ p ∈ buildFontFamilies ["f1", "f2", "f3", "f4", "f5", "f6"],
      p.2 ≠ "f6" := by
  exact ⟨rfl, by decide⟩

/-- C9 (amended): the builder names the first entry `primary`, the second
`secondary` and entries at indices 2-4 `family3`-`family5`; entries past
the fifth are dropped. -/
theorem buildFontFamilies_first_five_named (families : List String) :
    buildFontFamilies families
      = (families.take 5).enum.map (fun p => (fontFamilyName p.1, p.2)) := by
  match families with
  | [] => rfl
  | [a] => rfl
  | [a, b] => rfl
  | [a, b, c] => rfl
  | [a, b, c, d] => with_unfolding_all rfl
  | a :: b :: c :: d :: e :: rest => with_unfolding_all rfl

end Tokenize
